import Mathlib

/-!
Verification of the status-effect aggregation and replication core of
`src/src/source/character.ts` (the `Character` class of the WCS library).

The embedding is shallow: the mutable `Character` object becomes explicit
state records, the Luau/TypeScript maps become association lists in
insertion order (`Map` iteration order in roblox-ts), and Luau numbers are
modelled as rationals.  Definitions follow the source line by line; the
pieces of the library that live outside `character.ts` (the `StatusEffect`
module, `Flags`, `logError`) are modelled from the specification and say so
in their doc comments.
-/

namespace WCS

/-- The four affectable humanoid properties
(`Pick<Humanoid, WalkSpeed | JumpPower | AutoRotate | JumpHeight>`,
`character.ts` line 15).  Numeric properties are rationals, `AutoRotate`
is a boolean. -/
structure AffectableHumanoidProps where
  WalkSpeed : ℚ
  JumpPower : ℚ
  AutoRotate : Bool
  JumpHeight : ℚ
deriving DecidableEq, Repr

/-- The default baseline properties of a fresh `Character`
(`character.ts` lines 32-37). -/
def initialDefaultsProps : AffectableHumanoidProps :=
  { WalkSpeed := 16, JumpPower := 100, AutoRotate := true, JumpHeight := 7.2 }

/-- A record of optional overrides for the four affectable properties:
the `Props` field of a humanoid-data record, every key optional. -/
structure PropsOverride where
  WalkSpeed : Option ℚ
  JumpPower : Option ℚ
  AutoRotate : Option Bool
  JumpHeight : Option ℚ
deriving DecidableEq, Repr

/-- An override record with no key present. -/
def emptyOverride : PropsOverride :=
  { WalkSpeed := none, JumpPower := none, AutoRotate := none, JumpHeight := none }

/-- The merge mode of a humanoid-data record: the string literal union
`"Increment" | "Set"`. -/
inductive HumanoidDataMode where
  | Increment : HumanoidDataMode
  | Set : HumanoidDataMode
deriving DecidableEq, Repr

/-- Modelled from the spec: the optional humanoid data exposed by a status
effect, `\x7bProps: partial movement-property overrides, Mode:
Increment|Set, Priority: number\x7d` (the `StatusEffect` module is outside
`character.ts`; only this shape is consumed by the aggregation pass). -/
structure HumanoidData where
  Props : PropsOverride
  Mode : HumanoidDataMode
  Priority : ℚ
deriving DecidableEq, Repr

/-- Modelled from the spec: the view of a `StatusEffect` consumed by
`character.ts` — a unique string id (`GetId`), the declared type name used
for registry resolution, and the optional humanoid data
(`GetHumanoidData`). -/
structure StatusEffect where
  id : String
  className : String
  humanoidData : Option HumanoidData
deriving DecidableEq, Repr

/-- JS truthiness of a `number | undefined` value as compiled by
roblox-ts: `!x` holds when `x` is `undefined` or `0`.  Used for
`!previousSetMPriority` on lines 103 and 112. -/
def jsFalsyNum : Option ℚ → Bool
  | none => true
  | some x => decide (x = 0)

/-- The per-property increment-priority record `incPriorityList`
(`character.ts` lines 89-94), every entry starting at `0`. -/
structure IncPriorityList where
  WalkSpeed : ℚ
  JumpPower : ℚ
  AutoRotate : ℚ
  JumpHeight : ℚ
deriving DecidableEq, Repr

/-- The initial `incPriorityList` of a recomputation pass. -/
def initialIncPriorityList : IncPriorityList :=
  { WalkSpeed := 0, JumpPower := 0, AutoRotate := 0, JumpHeight := 0 }

/-- The mutable state of the loop body of `updateHumanoidProps`
(lines 88-96): the accumulating `propsToApply`, the `incPriorityList`,
and `previousSetMPriority`. -/
structure AggState where
  propsToApply : AffectableHumanoidProps
  incPriorityList : IncPriorityList
  previousSetMPriority : Option ℚ
deriving DecidableEq, Repr

/-- The `Increment` branch of the loop (lines 104-111): for each property
present in the override record, a numeric value is added onto
`propsToApply`; a non-numeric value (the boolean `AutoRotate`) replaces
the current value only when the effect priority exceeds the recorded
increment priority for that property, which is then updated. -/
def applyIncrement (priority : ℚ) (o : PropsOverride) (st : AggState) : AggState :=
  let p0 := st.propsToApply
  let p1 := match o.WalkSpeed with
    | some v => { p0 with WalkSpeed := v + p0.WalkSpeed }
    | none => p0
  let p2 := match o.JumpPower with
    | some v => { p1 with JumpPower := v + p1.JumpPower }
    | none => p1
  let p3 := match o.JumpHeight with
    | some v => { p2 with JumpHeight := v + p2.JumpHeight }
    | none => p2
  match o.AutoRotate with
  | some v =>
      if priority > st.incPriorityList.AutoRotate then
        { st with
            propsToApply := { p3 with AutoRotate := v },
            incPriorityList := { st.incPriorityList with AutoRotate := priority } }
      else
        { st with propsToApply := p3 }
  | none => { st with propsToApply := p3 }

/-- The replacement step of the `Set` branch (lines 114-116): every
property present in the override record overwrites `propsToApply`
unconditionally. -/
def applySetProps (o : PropsOverride) (p : AffectableHumanoidProps) : AffectableHumanoidProps :=
  { WalkSpeed := o.WalkSpeed.getD p.WalkSpeed,
    JumpPower := o.JumpPower.getD p.JumpPower,
    AutoRotate := o.AutoRotate.getD p.AutoRotate,
    JumpHeight := o.JumpHeight.getD p.JumpHeight }

/-- One iteration of the `statuses.forEach` loop of `updateHumanoidProps`
(`character.ts` lines 97-118): an effect without humanoid data is skipped
(line 99); an `Increment` effect applies only while `previousSetMPriority`
is still falsy (line 103); a `Set` effect applies when
`previousSetMPriority` is falsy or its priority strictly exceeds it
(line 112), records its priority and overwrites its properties. -/
def processStatus (st : AggState) (s : StatusEffect) : AggState :=
  match s.humanoidData with
  | none => st
  | some hd =>
    match hd.Mode with
    | HumanoidDataMode.Increment =>
        if jsFalsyNum st.previousSetMPriority then
          applyIncrement hd.Priority hd.Props st
        else st
    | HumanoidDataMode.Set =>
        if jsFalsyNum st.previousSetMPriority
            || decide (hd.Priority > st.previousSetMPriority.getD 0) then
          { propsToApply := applySetProps hd.Props st.propsToApply,
            incPriorityList := st.incPriorityList,
            previousSetMPriority := some hd.Priority }
        else st

/-- `updateHumanoidProps` (`character.ts` lines 83-123), as written.  The
argument list is the character effect map in insertion order; the result is
`none` when the method returns early on line 87 without touching the live
humanoid, and `some p` when the final loop (lines 120-122) writes the four
properties `p` onto the humanoid.

Line 85 reads `Status.GetHumanoidData() ?? statuses.push(Status)`: the
`push` runs only when `GetHumanoidData()` is nil, so `statuses` collects
exactly the effects WITHOUT humanoid data. -/
def updateHumanoidProps (defaultsProps : AffectableHumanoidProps)
    (statusEffects : List StatusEffect) : Option AffectableHumanoidProps :=
  let statuses := statusEffects.filter (fun s => s.humanoidData.isNone)
  if statuses.isEmpty then none
  else
    let init : AggState :=
      { propsToApply := defaultsProps,
        incPriorityList := initialIncPriorityList,
        previousSetMPriority := none }
    some (statuses.foldl processStatus init).propsToApply

/-- The effect of one recomputation pass on the live humanoid properties:
an early return leaves them untouched, otherwise the merged record is
written wholesale. -/
def applyToHumanoid (live : AffectableHumanoidProps) :
    Option AffectableHumanoidProps → AffectableHumanoidProps
  | none => live
  | some p => p

/-- Modelled from the spec: `updateHumanoidProps` as steps 1-6 of the
recomputation algorithm describe it — the pass partitions the active
effects and keeps those EXPOSING humanoid data (step 1), returns without
touching anything when there are none (step 2), and folds the merge loop
over the kept effects.  Identical to `updateHumanoidProps` except that the
filter keeps effects whose humanoid data is present. -/
def updateHumanoidPropsSpec (defaultsProps : AffectableHumanoidProps)
    (statusEffects : List StatusEffect) : Option AffectableHumanoidProps :=
  let statuses := statusEffects.filter (fun s => s.humanoidData.isSome)
  if statuses.isEmpty then none
  else
    let init : AggState :=
      { propsToApply := defaultsProps,
        incPriorityList := initialIncPriorityList,
        previousSetMPriority := none }
    some (statuses.foldl processStatus init).propsToApply

/-! ### Association-list maps

roblox-ts `Map` objects preserve insertion order; they are embedded as
association lists.  `mapGet` is `Map.get`, `mapSet` is `Map.set`
(replace in place when the key exists, append otherwise), `mapDelete` is
`Map.delete`, `mapHas` is `Map.has`. -/

/-- `Map.get`: the value at the first entry with the given key. -/
def mapGet {κ α : Type} [DecidableEq κ] : List (κ × α) → κ → Option α
  | [], _ => none
  | (k2, v) :: rest, k => if k2 = k then some v else mapGet rest k

/-- `Map.set`: replace the entry in place when the key exists, append a
fresh entry otherwise. -/
def mapSet {κ α : Type} [DecidableEq κ] : List (κ × α) → κ → α → List (κ × α)
  | [], k, v => [(k, v)]
  | (k2, v2) :: rest, k, v =>
      if k2 = k then (k, v) :: rest else (k2, v2) :: mapSet rest k v

/-- `Map.delete`: drop the entries with the given key. -/
def mapDelete {κ α : Type} [DecidableEq κ] (m : List (κ × α)) (k : κ) : List (κ × α) :=
  m.filter (fun p => p.1 ≠ k)

/-- `Map.has`. -/
def mapHas {κ α : Type} [DecidableEq κ] (m : List (κ × α)) (k : κ) : Bool :=
  (mapGet m k).isSome

/-! ### Character state and the attach / destroy handlers -/

/-- The observable per-character state touched by `_addStatus`, its
destruction handler and the recomputation pass: the id → effect map, the
baseline properties, the live humanoid properties, and the histories of
`StatusEffectAdded` / `StatusEffectRemoved` signal fires and of live
`HumanoidDataChanged` subscriptions (one per attached effect id). -/
structure CharState where
  statusEffects : List (String × StatusEffect)
  defaultsProps : AffectableHumanoidProps
  humanoid : AffectableHumanoidProps
  addedFired : List String
  removedFired : List String
  connections : List String
deriving DecidableEq, Repr

/-- Run `this.updateHumanoidProps()` on a character state: recompute from
the current effect map and write the result (if any) onto the live
humanoid. -/
def runUpdateHumanoidProps (cs : CharState) : CharState :=
  let recomputed := updateHumanoidProps cs.defaultsProps (cs.statusEffects.map Prod.snd)
  { cs with humanoid := applyToHumanoid cs.humanoid recomputed }

/-- `_addStatus` (`character.ts` lines 140-147): register the effect under
its id, fire `StatusEffectAdded`, recompute, and subscribe to the effect
change signal. -/
def addStatus (cs : CharState) (s : StatusEffect) : CharState :=
  let cs1 := { cs with
      statusEffects := mapSet cs.statusEffects s.id s,
      addedFired := cs.addedFired ++ [s.id] }
  let cs2 := runUpdateHumanoidProps cs1
  { cs2 with connections := cs2.connections ++ [s.id] }

/-- The one-time `Status.Destroyed` handler registered by `_addStatus`
(`character.ts` lines 149-154): disconnect the change subscription, delete
the effect from the map, fire `StatusEffectRemoved`, recompute. -/
def onStatusDestroyed (cs : CharState) (s : StatusEffect) : CharState :=
  let cs1 := { cs with connections := cs.connections.filter (fun c => c ≠ s.id) }
  let cs2 := { cs1 with statusEffects := mapDelete cs1.statusEffects s.id }
  let cs3 := { cs2 with removedFired := cs2.removedFired ++ [s.id] }
  runUpdateHumanoidProps cs3

/-! ### Client-side reconciliation (`setupReplication_Client`) -/

/-- Modelled from the spec: the serialized projection of a status effect
(`StatusData`, from the external `StatusEffect` module) carries the
declared type name `className` used for Effect Registry resolution. -/
structure StatusData where
  className : String
deriving DecidableEq, Repr

/-- Modelled from the spec: the Effect Registry is a pure lookup from type
name to construction capability; it is embedded as the list of registered
type names. -/
abbrev EffectRegistry := List String

/-- Modelled from the spec: constructing a status effect with the
`CanAssignCustomId` directive yields a new instance carrying exactly the
given id; reconciliation never sets the internal (humanoid) state of the
new effect — each effect syncs that itself. -/
def mkReplicatedStatus (d : StatusData) (id : String) : StatusEffect :=
  { id := id, className := d.className, humanoidData := none }

/-- `processStatusAddition` (`character.ts` lines 174-190): resolve the
declared type name through the registry — a fatal replication error when
unregistered — then construct the effect with the exact snapshot id and
insert it into the local effect map. -/
def processStatusAddition (registry : EffectRegistry)
    (m : List (String × StatusEffect)) (d : StatusData) (id : String) :
    Except String (List (String × StatusEffect)) :=
  if registry.contains d.className then
    Except.ok (mapSet m id (mkReplicatedStatus d id))
  else
    Except.error "Replication Error: Could not find a registered StatusEffect"

/-- The first `forEach` of the reconciliation callback (lines 195-199):
for every id of the snapshot absent from the (evolving) local map, run
`processStatusAddition`. -/
def addMissingStatuses (registry : EffectRegistry) :
    List (String × StatusData) → List (String × StatusEffect) →
    Except String (List (String × StatusEffect))
  | [], m => Except.ok m
  | (id, d) :: rest, m =>
    match mapGet m id with
    | some _ => addMissingStatuses registry rest m
    | none =>
      match processStatusAddition registry m d id with
      | Except.ok m2 => addMissingStatuses registry rest m2
      | Except.error e => Except.error e

/-- The second `forEach` of the reconciliation callback (lines 201-205):
every local effect whose id is absent from the snapshot is destroyed; its
destruction handler (modelled from the spec) removes it from the map. -/
def destroyStaleStatuses (snap : List (String × StatusData))
    (m : List (String × StatusEffect)) : List (String × StatusEffect) :=
  m.filter (fun p => mapHas snap p.1)

/-- The effect-map part of one reconciliation cycle
(`character.ts` lines 192-205): an absent snapshot leaves the map alone
(line 193); otherwise missing effects are constructed and stale effects
destroyed. -/
def reconcileStatusEffects (registry : EffectRegistry)
    (m : List (String × StatusEffect)) :
    Option (List (String × StatusData)) →
    Except String (List (String × StatusEffect))
  | none => Except.ok m
  | some snap => (addMissingStatuses registry snap m).map (destroyStaleStatuses snap)

/-! ### Character construction (`constructor`, lines 44-81) -/

/-- An entity handle: an opaque identity plus whether the entity owns a
`Humanoid` child (`FindFirstChildOfClass` on line 59). -/
structure EngineInstance where
  instId : ℕ
  hasHumanoid : Bool
deriving DecidableEq, Repr

/-- The view of a live `Character` recorded in the global
`currentCharMap`: its entity handle and its per-character state. -/
structure Character where
  inst : EngineInstance
  state : CharState
deriving DecidableEq, Repr

/-- The ambient process conditions read by the constructor:
`RunService.IsClient()` and `getActiveHandler()` (the latter modelled from
the spec as a readiness flag — `utility.ts` is outside `character.ts`). -/
structure Env where
  isClient : Bool
  activeHandler : Bool
deriving DecidableEq, Repr

/-- Modelled from the spec: the internal `Flags.CanCreateCharacterClient`
capability token that the replication bridge passes to the constructor;
an argument equal to `some flag` is the capability, anything else is not. -/
inductive CharFlag where
  | CanCreateCharacterClient : CharFlag
deriving DecidableEq, Repr

/-- The `Character` constructor (`character.ts` lines 44-81) as a function
from the global handle → character map to either a fatal error (`logError`
halts construction, modelled from the spec as a thrown error) or the
updated global map together with the constructed character.  The four
precondition checks run in source order before any mutation; on success
the character is registered in the global map with a fresh state. -/
def characterNew (env : Env) (charMap : List (EngineInstance × Character))
    (inst : EngineInstance) (canCreateClient : Option CharFlag) :
    Except String (List (EngineInstance × Character) × Character) :=
  if env.isClient ∧ canCreateClient ≠ some CharFlag.CanCreateCharacterClient then
    Except.error "Attempted to manually create a character on client."
  else if (mapGet charMap inst).isSome then
    Except.error "Attempted to create 2 different characters over a same instance."
  else if ¬ env.activeHandler then
    Except.error "Attempted to instantiate a character before server has started."
  else if ¬ inst.hasHumanoid then
    Except.error "Attempted to instantiate a character over an instance without humanoid."
  else
    let freshState : CharState :=
      { statusEffects := [],
        defaultsProps := initialDefaultsProps,
        humanoid := applyToHumanoid initialDefaultsProps
          (updateHumanoidProps initialDefaultsProps []),
        addedFired := [], removedFired := [], connections := [] }
    let c : Character := { inst := inst, state := freshState }
    Except.ok (mapSet charMap inst c, c)

/-! ### Reference semantics: `table.clone`, `_packData`, `SetDefaultProps`

Luau tables are heap objects handled by reference.  A `Store α` is a heap
of table objects of payload `α`: an association list from reference to
payload plus a fresh-reference counter.  Mutating a table in place is
`storeWrite`; `table.clone` allocates a fresh table with a copied payload
(the payloads used here hold only scalars, so the shallow copy of
`table.clone` copies them in full). -/

/-- A heap of table objects with payload type `α`. -/
structure Store (α : Type) where
  objs : List (ℕ × α)
  next : ℕ
deriving DecidableEq, Repr

/-- Every allocated reference is below the fresh-reference counter. -/
def storeWF {α : Type} (s : Store α) : Prop :=
  ∀ p ∈ s.objs, p.1 < s.next

/-- Allocate a fresh table holding payload `v`. -/
def storeAlloc {α : Type} (s : Store α) (v : α) : ℕ × Store α :=
  (s.next, { objs := mapSet s.objs s.next v, next := s.next + 1 })

/-- Mutate the table at reference `r` in place by `f` (a no-op on a
dangling reference). -/
def storeWrite {α : Type} (s : Store α) (r : ℕ) (f : α → α) : Store α :=
  match mapGet s.objs r with
  | some v => { s with objs := mapSet s.objs r (f v) }
  | none => s

/-- A sequence of in-place mutations, all aimed at the table at `r`. -/
def storeWrites {α : Type} (s : Store α) (r : ℕ) (fs : List (α → α)) : Store α :=
  fs.foldl (fun s2 f => storeWrite s2 r f) s

/-- `table.clone` (used on lines 222 and 226): allocate a fresh table
whose payload is a copy of the payload at `r`; `none` on a dangling
reference. -/
def tableClone {α : Type} (s : Store α) (r : ℕ) : Option (ℕ × Store α) :=
  (mapGet s.objs r).map (storeAlloc s)

/-- `GetDefaultsProps` (`character.ts` lines 221-223): return
`table.clone(this.defaultsProps)`, given the reference the character holds
to its baseline-properties table. -/
def GetDefaultsProps (s : Store AffectableHumanoidProps) (defaultsPropsRef : ℕ) :
    Option (ℕ × Store AffectableHumanoidProps) :=
  tableClone s defaultsPropsRef

/-- `GetCharacterMap` (`character.ts` lines 225-227): return
`table.clone(currentCharMap)`, given the reference to the global map
table.  The payload is the list of entries of the map. -/
def GetCharacterMap (s : Store (List (EngineInstance × Character)))
    (currentCharMapRef : ℕ) :
    Option (ℕ × Store (List (EngineInstance × Character))) :=
  tableClone s currentCharMapRef

/-- The character state seen by the replication claims: the reference the
character holds to its baseline-properties table and the log of
`patchCharacterData` pushes made to the shared store (each recorded as the
pushed `defaultProps` reference). -/
structure CharRefState where
  statusEffects : List (String × StatusEffect)
  defaultsPropsRef : ℕ
  patchesPushed : List ℕ
deriving DecidableEq, Repr

/-- `SetDefaultProps` (`character.ts` lines 212-219): store the argument
table BY REFERENCE as the new baseline, and on the server push an
incremental `\x7bdefaultProps\x7d` patch to the shared store. -/
def SetDefaultProps (isServer : Bool) (cs : CharRefState) (propsRef : ℕ) : CharRefState :=
  { cs with
      defaultsPropsRef := propsRef,
      patchesPushed :=
        if isServer then cs.patchesPushed ++ [propsRef] else cs.patchesPushed }

/-- The snapshot produced by `_packData` (`character.ts` lines 160-168):
the per-effect serialization is delegated to each effect (outside
`character.ts`, modelled from the spec as `packStatus`), and the
`defaultProps` field is `this.defaultsProps` itself — the reference,
with no clone. -/
structure CharacterDataRef where
  statusEffects : List (String × StatusData)
  defaultProps : ℕ
deriving DecidableEq, Repr

/-- Modelled from the spec: `Status._packData()`, the serialized
projection of one status effect carrying its declared type name. -/
def packStatus (s : StatusEffect) : StatusData :=
  { className := s.className }

/-- `_packData` (`character.ts` lines 160-168). -/
def packData (cs : CharRefState) : CharacterDataRef :=
  { statusEffects := cs.statusEffects.map (fun p => (p.1, packStatus p.2)),
    defaultProps := cs.defaultsPropsRef }

/-- The `defaultProps` step of the reconciliation callback
(`character.ts` line 207): re-apply the snapshot baseline via
`SetDefaultProps` exactly when the snapshot reference and the cached
reference differ (`!==` compares table identity, not contents). -/
def reconcileDefaultProps (cs : CharRefState) (snapDefaultProps : ℕ) : CharRefState :=
  if snapDefaultProps ≠ cs.defaultsPropsRef then
    SetDefaultProps false cs snapDefaultProps
  else cs

/-! ### Concrete effects used in the test-property scenarios -/

/-- A `Set` effect of priority 1 overriding `WalkSpeed` to 10. -/
def effSetSpeed10P1 : StatusEffect :=
  { id := "A", className := "SpeedSetA",
    humanoidData := some { Props := { emptyOverride with WalkSpeed := some 10 },
                           Mode := HumanoidDataMode.Set, Priority := 1 } }

/-- A `Set` effect of priority 5 overriding `WalkSpeed` to 20. -/
def effSetSpeed20P5 : StatusEffect :=
  { id := "B", className := "SpeedSetB",
    humanoidData := some { Props := { emptyOverride with WalkSpeed := some 20 },
                           Mode := HumanoidDataMode.Set, Priority := 5 } }

/-- An `Increment` effect of priority 1 adding 5 to `WalkSpeed`. -/
def effIncSpeed5P1 : StatusEffect :=
  { id := "I1", className := "SpeedIncA",
    humanoidData := some { Props := { emptyOverride with WalkSpeed := some 5 },
                           Mode := HumanoidDataMode.Increment, Priority := 1 } }

/-- An `Increment` effect of priority 2 adding 3 to `WalkSpeed`. -/
def effIncSpeed3P2 : StatusEffect :=
  { id := "I2", className := "SpeedIncB",
    humanoidData := some { Props := { emptyOverride with WalkSpeed := some 3 },
                           Mode := HumanoidDataMode.Increment, Priority := 2 } }

/-- A `Set` effect of priority 3 overriding `WalkSpeed` to 10. -/
def effSetSpeed10P3 : StatusEffect :=
  { id := "S3", className := "SpeedSetC",
    humanoidData := some { Props := { emptyOverride with WalkSpeed := some 10 },
                           Mode := HumanoidDataMode.Set, Priority := 3 } }

/-- An `Increment` effect of priority 10 adding 5 to `WalkSpeed`. -/
def effIncSpeed5P10 : StatusEffect :=
  { id := "I10", className := "SpeedIncC",
    humanoidData := some { Props := { emptyOverride with WalkSpeed := some 5 },
                           Mode := HumanoidDataMode.Increment, Priority := 10 } }

/-- A `Set` effect of priority 1 overriding `WalkSpeed` to 20. -/
def effSetSpeed20P1 : StatusEffect :=
  { id := "S1", className := "SpeedSetD",
    humanoidData := some { Props := { emptyOverride with WalkSpeed := some 20 },
                           Mode := HumanoidDataMode.Set, Priority := 1 } }

/-- A purely cosmetic effect exposing no humanoid data. -/
def effNoData : StatusEffect :=
  { id := "N", className := "Cosmetic", humanoidData := none }

/-- A live humanoid property record distinct from the baseline (what the
engine holds before any write of this pass). -/
def livePropsStart : AffectableHumanoidProps :=
  { WalkSpeed := 0, JumpPower := 0, AutoRotate := false, JumpHeight := 0 }

/-- A concrete entity handle owning a humanoid. -/
def sampleInstance : EngineInstance :=
  { instId := 0, hasHumanoid := true }

/-- A concrete fresh character state. -/
def sampleCharState : CharState :=
  { statusEffects := [], defaultsProps := initialDefaultsProps,
    humanoid := livePropsStart, addedFired := [], removedFired := [],
    connections := [] }

/-- A concrete live character over `sampleInstance`. -/
def sampleCharacter : Character :=
  { inst := sampleInstance, state := sampleCharState }

/-! ## Helper lemmas -/

theorem mapGet_mapSet {κ α : Type} [DecidableEq κ] (m : List (κ × α)) (k k2 : κ) (v : α) :
    mapGet (mapSet m k v) k2 = if k = k2 then some v else mapGet m k2 := by
  induction m with
  | nil => simp [mapSet, mapGet]
  | cons p rest ih =>
    obtain ⟨k3, v3⟩ := p
    by_cases h3 : k3 = k
    · subst h3
      by_cases h2 : k3 = k2 <;> simp [mapSet, mapGet, h2]
    · by_cases h2 : k3 = k2
      · subst h2
        have : ¬ k = k3 := fun h => h3 h.symm
        simp [mapSet, mapGet, h3, this]
      · simp [mapSet, mapGet, h3, h2, ih]

theorem mapGet_eq_none_iff {κ α : Type} [DecidableEq κ] (m : List (κ × α)) (k : κ) :
    mapGet m k = none ↔ k ∉ m.map Prod.fst := by
  induction m with
  | nil => simp [mapGet]
  | cons p rest ih =>
    obtain ⟨k3, v3⟩ := p
    by_cases hk : k3 = k
    · subst hk
      simp [mapGet]
    · rw [mapGet, if_neg hk, ih]
      have hk2 : k ≠ k3 := fun h => hk h.symm
      simp [hk2]

theorem keys_mapSet {κ α : Type} [DecidableEq κ] (m : List (κ × α)) (k : κ) (v : α) :
    (mapSet m k v).map Prod.fst =
      if mapHas m k then m.map Prod.fst else m.map Prod.fst ++ [k] := by
  induction m with
  | nil => simp [mapSet, mapHas, mapGet]
  | cons p rest ih =>
    obtain ⟨k3, v3⟩ := p
    by_cases h3 : k3 = k
    · subst h3
      simp [mapSet, mapHas, mapGet]
    · simp only [mapSet, h3, if_false, List.map_cons, ih, mapHas, mapGet, if_neg h3]
      by_cases hh : (mapGet rest k).isSome <;> simp [hh]

theorem nodup_keys_mapSet {κ α : Type} [DecidableEq κ] (m : List (κ × α)) (k : κ) (v : α)
    (h : (m.map Prod.fst).Nodup) : ((mapSet m k v).map Prod.fst).Nodup := by
  rw [keys_mapSet]
  by_cases hh : mapHas m k
  · simpa [hh]
  · have hnone : mapGet m k = none := by
      cases hmk : mapGet m k with
      | none => rfl
      | some v2 => exact absurd (by simp [mapHas, hmk]) hh
    have hnotin : k ∉ m.map Prod.fst := (mapGet_eq_none_iff m k).mp hnone
    rw [if_neg hh, List.nodup_append]
    refine ⟨h, List.nodup_singleton k, ?_⟩
    intro a ha hak
    simp at hak
    exact hnotin (hak ▸ ha)

theorem mapGet_filter_keys {κ α : Type} [DecidableEq κ] (m : List (κ × α)) (f : κ → Bool) (k : κ) :
    mapGet (m.filter (fun p => f p.1)) k = if f k then mapGet m k else none := by
  induction m with
  | nil => simp [mapGet]
  | cons p rest ih =>
    obtain ⟨k3, v3⟩ := p
    by_cases h3 : f k3
    · by_cases hk : k3 = k
      · subst hk
        simp [List.filter, h3, mapGet, ih]
      · simp [List.filter, h3, mapGet, hk, ih]
    · by_cases hk : k3 = k
      · subst hk
        simp [List.filter, h3, mapGet, ih, Bool.eq_false_iff.mpr h3]
      · simp [List.filter, h3, mapGet, hk, ih]

theorem mapGet_mem {κ α : Type} [DecidableEq κ] (m : List (κ × α)) (k : κ) (v : α)
    (h : mapGet m k = some v) : (k, v) ∈ m := by
  induction m with
  | nil => simp [mapGet] at h
  | cons p rest ih =>
    obtain ⟨k3, v3⟩ := p
    by_cases hk : k3 = k
    · subst hk
      simp [mapGet] at h
      simp [h]
    · simp [mapGet, hk] at h
      exact List.mem_cons_of_mem _ (ih h)

theorem keys_filter {κ α : Type} [DecidableEq κ] (m : List (κ × α)) (f : κ → Bool) :
    (m.filter (fun p => f p.1)).map Prod.fst = (m.map Prod.fst).filter f := by
  induction m with
  | nil => rfl
  | cons p rest ih =>
    obtain ⟨k3, v3⟩ := p
    by_cases h3 : f k3 <;> simp [List.filter, h3, ih]

theorem mapGet_mapDelete {κ α : Type} [DecidableEq κ] (m : List (κ × α)) (k k2 : κ) :
    mapGet (mapDelete m k) k2 = if k2 = k then none else mapGet m k2 := by
  have := mapGet_filter_keys m (fun a => decide (a ≠ k)) k2
  by_cases hk : k2 = k <;> simpa [mapDelete, hk] using this

theorem foldl_processStatus_nodata (l : List StatusEffect) (st : AggState)
    (h : ∀ s ∈ l, s.humanoidData = none) : l.foldl processStatus st = st := by
  induction l generalizing st with
  | nil => rfl
  | cons a t ih =>
    have ha : a.humanoidData = none := h a (List.mem_cons_self a t)
    have hstep : processStatus st a = st := by simp [processStatus, ha]
    simp only [List.foldl_cons, hstep]
    exact ih st (fun s hs => h s (List.mem_cons_of_mem a hs))

/-- The recomputation pass of the source, in closed form: because line 85
collects exactly the effects WITHOUT humanoid data, the pass returns early
(touching nothing) whenever every active effect exposes humanoid data, and
otherwise writes an unmodified copy of the baseline — the merge loop never
sees an effect with humanoid data, so no override is ever applied. -/
theorem updateHumanoidProps_eq (d : AffectableHumanoidProps) (effects : List StatusEffect) :
    updateHumanoidProps d effects =
      if effects.all (fun s => s.humanoidData.isSome) then none else some d := by
  by_cases hall : effects.all (fun s => s.humanoidData.isSome)
  · have hnil : effects.filter (fun s => s.humanoidData.isNone) = [] := by
      rw [List.filter_eq_nil_iff]
      intro a ha
      have := List.all_eq_true.mp hall a ha
      simp only [Option.isNone_iff_eq_none]
      intro hcontra
      rw [hcontra] at this
      simp at this
    simp [updateHumanoidProps, hnil, hall]
  · have hne : effects.filter (fun s => s.humanoidData.isNone) ≠ [] := by
      intro hcontra
      apply hall
      rw [List.all_eq_true]
      intro a ha
      by_cases hsome : a.humanoidData.isSome
      · exact hsome
      · have hmem : a ∈ effects.filter (fun s => s.humanoidData.isNone) := by
          rw [List.mem_filter]
          exact ⟨ha, by simpa [Option.isNone_iff_eq_none, Option.not_isSome_iff_eq_none] using hsome⟩
        rw [hcontra] at hmem
        simp at hmem
    have hfold : (effects.filter (fun s => s.humanoidData.isNone)).foldl processStatus
        { propsToApply := d, incPriorityList := initialIncPriorityList,
          previousSetMPriority := none } =
        { propsToApply := d, incPriorityList := initialIncPriorityList,
          previousSetMPriority := none } := by
      apply foldl_processStatus_nodata
      intro s hs
      rw [List.mem_filter] at hs
      simpa [Option.isNone_iff_eq_none] using hs.2
    simp [updateHumanoidProps, List.isEmpty_iff, hne, hall, hfold]

theorem storeWrite_other {α : Type} (s : Store α) (r r2 : ℕ) (f : α → α) (hne : r ≠ r2) :
    mapGet (storeWrite s r f).objs r2 = mapGet s.objs r2 := by
  unfold storeWrite
  cases hget : mapGet s.objs r with
  | none => rfl
  | some v => simp [mapGet_mapSet, hne]

theorem storeWrites_other {α : Type} (s : Store α) (r r2 : ℕ) (fs : List (α → α))
    (hne : r ≠ r2) : mapGet (storeWrites s r fs).objs r2 = mapGet s.objs r2 := by
  induction fs generalizing s with
  | nil => rfl
  | cons f t ih =>
    show mapGet (storeWrites (storeWrite s r f) r t).objs r2 = mapGet s.objs r2
    rw [ih (storeWrite s r f), storeWrite_other s r r2 f hne]

theorem storeWrite_same {α : Type} (s : Store α) (r : ℕ) (v : α) (f : α → α)
    (hget : mapGet s.objs r = some v) :
    mapGet (storeWrite s r f).objs r = some (f v) := by
  unfold storeWrite
  rw [hget]
  simp [mapGet_mapSet]

theorem tableClone_writes_preserve {α : Type} (s : Store α) (r : ℕ) (v : α)
    (hwf : storeWF s) (hget : mapGet s.objs r = some v) :
    ∃ r1 s1, tableClone s r = some (r1, s1) ∧ r1 ≠ r ∧
      ∀ fs, mapGet (storeWrites s1 r1 fs).objs r = some v := by
  have hr : r < s.next := hwf (r, v) (mapGet_mem s.objs r v hget)
  have hne : s.next ≠ r := Nat.ne_of_gt hr
  refine ⟨s.next, { objs := mapSet s.objs s.next v, next := s.next + 1 }, ?_, hne, ?_⟩
  · simp [tableClone, hget, storeAlloc]
  · intro fs
    rw [storeWrites_other _ _ _ _ hne]
    show mapGet (mapSet s.objs s.next v) r = some v
    rw [mapGet_mapSet]
    simp [hne, hget]

theorem addMissingStatuses_ok (registry : EffectRegistry) (snap : List (String × StatusData))
    (m : List (String × StatusEffect))
    (hreg : ∀ p ∈ snap, registry.contains p.2.className = true) :
    ∃ m2, addMissingStatuses registry snap m = Except.ok m2 := by
  induction snap generalizing m with
  | nil => exact ⟨m, rfl⟩
  | cons p rest ih =>
    obtain ⟨id, d⟩ := p
    have hd : registry.contains d.className = true := hreg (id, d) (List.mem_cons_self _ _)
    have hrest : ∀ q ∈ rest, registry.contains q.2.className = true :=
      fun q hq => hreg q (List.mem_cons_of_mem _ hq)
    cases hget : mapGet m id with
    | some e =>
        obtain ⟨m2, hm2⟩ := ih m hrest
        exact ⟨m2, by simp [addMissingStatuses, hget, hm2]⟩
    | none =>
        obtain ⟨m2, hm2⟩ := ih (mapSet m id (mkReplicatedStatus d id)) hrest
        have hd2 : d.className ∈ registry := by simpa using hd
        exact ⟨m2, by simp [addMissingStatuses, hget, processStatusAddition, hd2, hm2]⟩

theorem addMissingStatuses_spec (registry : EffectRegistry) :
    ∀ (snap : List (String × StatusData)) (m m2 : List (String × StatusEffect)),
    addMissingStatuses registry snap m = Except.ok m2 →
    (∀ k e, mapGet m k = some e → mapGet m2 k = some e) ∧
    (∀ k d, mapGet snap k = some d → mapGet m k = none →
        mapGet m2 k = some (mkReplicatedStatus d k)) ∧
    (∀ k, mapGet m k = none → mapGet snap k = none → mapGet m2 k = none) ∧
    ((m.map Prod.fst).Nodup → (m2.map Prod.fst).Nodup) := by
  intro snap
  induction snap with
  | nil =>
    intro m m2 h
    have hm : m2 = m := by
      simpa [addMissingStatuses] using h.symm
    subst hm
    exact ⟨fun k e he => he, fun k d hd => by simp [mapGet] at hd,
      fun k hk _ => hk, fun hn => hn⟩
  | cons p rest ih =>
    intro m m2 h
    obtain ⟨id, d0⟩ := p
    cases hget : mapGet m id with
    | some e0 =>
      have h2 : addMissingStatuses registry rest m = Except.ok m2 := by
        simpa [addMissingStatuses, hget] using h
      obtain ⟨ih1, ih2, ih3, ih4⟩ := ih m m2 h2
      refine ⟨ih1, ?_, ?_, ih4⟩
      · intro k d hd hk
        by_cases hkid : id = k
        · subst hkid
          rw [hget] at hk
          exact absurd hk (by simp)
        · have : mapGet rest k = some d := by
            simpa [mapGet, hkid] using hd
          exact ih2 k d this hk
      · intro k hk hsnap
        by_cases hkid : id = k
        · subst hkid
          simp [mapGet] at hsnap
        · have : mapGet rest k = none := by
            simpa [mapGet, hkid] using hsnap
          exact ih3 k hk this
    | none =>
      cases hc : registry.contains d0.className with
      | false =>
        have hc2 : d0.className ∉ registry := by simpa using hc
        rw [addMissingStatuses] at h
        simp [hget, processStatusAddition, hc2] at h
      | true =>
        have hc2 : d0.className ∈ registry := by simpa using hc
        have h2 : addMissingStatuses registry rest (mapSet m id (mkReplicatedStatus d0 id))
            = Except.ok m2 := by
          simpa [addMissingStatuses, hget, processStatusAddition, hc2] using h
        obtain ⟨ih1, ih2, ih3, ih4⟩ := ih _ m2 h2
        refine ⟨?_, ?_, ?_, ?_⟩
        · intro k e he
          apply ih1
          rw [mapGet_mapSet]
          have hkid : ¬ id = k := by
            intro hkid
            subst hkid
            rw [hget] at he
            exact absurd he (by simp)
          simp [hkid, he]
        · intro k d hd hk
          by_cases hkid : id = k
          · subst hkid
            have hd0 : d = d0 := by
              simp [mapGet] at hd
              exact hd.symm
            subst hd0
            apply ih1
            rw [mapGet_mapSet]
            simp
          · have hdrest : mapGet rest k = some d := by
              simpa [mapGet, hkid] using hd
            apply ih2 k d hdrest
            rw [mapGet_mapSet]
            simp [hkid, hk]
        · intro k hk hsnap
          by_cases hkid : id = k
          · subst hkid
            simp [mapGet] at hsnap
          · have hsrest : mapGet rest k = none := by
              simpa [mapGet, hkid] using hsnap
            apply ih3 k _ hsrest
            rw [mapGet_mapSet]
            simp [hkid, hk]
        · intro hn
          exact ih4 (nodup_keys_mapSet m id _ hn)

theorem keys_id_mapSet (m : List (String × StatusEffect)) (s : StatusEffect)
    (h : ∀ p ∈ m, (p.2 : StatusEffect).id = p.1) :
    ∀ p ∈ mapSet m s.id s, (p.2 : StatusEffect).id = p.1 := by
  induction m with
  | nil =>
    intro q hq
    simp [mapSet] at hq
    simp [hq]
  | cons p0 rest ih =>
    obtain ⟨k0, v0⟩ := p0
    intro q hq
    by_cases h0 : k0 = s.id
    · subst h0
      have hq2 : q = (s.id, s) ∨ q ∈ rest := by simpa [mapSet] using hq
      rcases hq2 with h2 | h2
      · simp [h2]
      · exact h q (List.mem_cons_of_mem _ h2)
    · have hq2 : q = (k0, v0) ∨ q ∈ mapSet rest s.id s := by simpa [mapSet, h0] using hq
      rcases hq2 with h2 | h2
      · subst h2
        exact h (k0, v0) (List.mem_cons_self _ _)
      · exact ih (fun r hr => h r (List.mem_cons_of_mem _ hr)) q h2

/-! ## Claim theorems -/

/-- Claim C1: the recomputation pass is claimed to consider exactly the
active effects that expose humanoid data and, when none does, to leave the
baseline and the live movement properties untouched.  The code does the
opposite: with a single effect EXPOSING humanoid data the pass returns
early and the effect is never considered, and with a single effect
exposing NO humanoid data the pass overwrites the live movement properties
with the baseline even though no effect exposes humanoid data.  This
contradicts the claim at both failing inputs, so the claim marks a code
bug (line 85 pushes an effect onto `statuses` only when its humanoid data
is nil). -/
theorem C1_recompute_considers_wrong_effects :
    updateHumanoidProps initialDefaultsProps [effSetSpeed20P1] = none ∧
    livePropsStart ≠ initialDefaultsProps ∧
    applyToHumanoid livePropsStart (updateHumanoidProps initialDefaultsProps [effNoData])
      = initialDefaultsProps := by
  refine ⟨rfl, ?_, rfl⟩
  intro h
  have := congrArg AffectableHumanoidProps.AutoRotate h
  simp [livePropsStart, initialDefaultsProps] at this

/-- Claim C2: with Set effects A (priority 1, WalkSpeed 10) and B
(priority 5, WalkSpeed 20), the merged WalkSpeed 20 is claimed to be
written to the humanoid in either attach order.  On the code, both orders
return early without writing anything at all (both effects expose humanoid
data, so line 85 collects neither and line 87 returns): a code bug, not
the claimed behaviour. -/
theorem C2_set_priority_example_writes_nothing :
    updateHumanoidProps initialDefaultsProps [effSetSpeed10P1, effSetSpeed20P5] = none ∧
    updateHumanoidProps initialDefaultsProps [effSetSpeed20P5, effSetSpeed10P1] = none := by
  exact ⟨rfl, rfl⟩

/-- Claim C3: with baseline WalkSpeed 16 and exactly two Increment effects
(+5 at priority 1, +3 at priority 2), recomputation is claimed to write
WalkSpeed 24.  On the code, the pass returns early and writes nothing
(both effects expose humanoid data): a code bug. -/
theorem C3_increment_sum_example_writes_nothing :
    updateHumanoidProps initialDefaultsProps [effIncSpeed5P1, effIncSpeed3P2] = none ∧
    updateHumanoidProps initialDefaultsProps [effIncSpeed3P2, effIncSpeed5P1] = none := by
  exact ⟨rfl, rfl⟩

/-- Claim C4: a Set effect is claimed to apply when its priority exceeds
the running Set threshold (the first Set always applying), with later
Increment effects skipped — e.g. Set priority 3 before Increment
priority 10 yields the Set override.  On the code, neither effect is ever
processed: the pass returns early and no Set effect ever applies: a code
bug. -/
theorem C4_set_then_increment_example_writes_nothing :
    updateHumanoidProps initialDefaultsProps [effSetSpeed10P3, effIncSpeed5P10] = none := by
  exact rfl

/-- The merge loop itself matches the specified algorithm: on the
spec-modelled pass (filter kept as the spec states it) the four §8
test-property scenarios come out exactly as specified — WalkSpeed 20 for
the two Set effects in either order, 24 for the increment sum, and 10 for
Set-before-Increment.  This supports reading line 85 as a slip rather
than intent: the dead merge loop implements the specified algorithm. -/
theorem updateHumanoidPropsSpec_testable_properties :
    updateHumanoidPropsSpec initialDefaultsProps [effSetSpeed10P1, effSetSpeed20P5]
      = some { initialDefaultsProps with WalkSpeed := 20 } ∧
    updateHumanoidPropsSpec initialDefaultsProps [effSetSpeed20P5, effSetSpeed10P1]
      = some { initialDefaultsProps with WalkSpeed := 20 } ∧
    updateHumanoidPropsSpec initialDefaultsProps [effIncSpeed5P1, effIncSpeed3P2]
      = some { initialDefaultsProps with WalkSpeed := 24 } ∧
    updateHumanoidPropsSpec initialDefaultsProps [effSetSpeed10P3, effIncSpeed5P10]
      = some { initialDefaultsProps with WalkSpeed := 10 } := by
  refine ⟨?_, ?_, ?_, ?_⟩ <;>
    norm_num [updateHumanoidPropsSpec, processStatus, applyIncrement, applySetProps,
      jsFalsyNum, emptyOverride, initialDefaultsProps, initialIncPriorityList,
      effSetSpeed10P1, effSetSpeed20P5, effIncSpeed5P1, effIncSpeed3P2,
      effSetSpeed10P3, effIncSpeed5P10]

/-- Claim C5: one reconciliation cycle over a non-absent snapshot, given
that every type name of the snapshot is registered and the local map has
no duplicate ids, succeeds and produces a local map in which (i) ids keep
being unique, (ii) every id present in the snapshot but absent locally is
bound to exactly one freshly constructed effect carrying that exact id,
(iii) every locally matched effect survives untouched, and (iv) every id
absent from the snapshot is gone (its effect was destroyed and its
destruction handler removed it from the map). -/
theorem C5_reconciliation (registry : EffectRegistry) (snap : List (String × StatusData))
    (m : List (String × StatusEffect))
    (hreg : ∀ p ∈ snap, registry.contains p.2.className = true)
    (hnodup : (m.map Prod.fst).Nodup) :
    ∃ m2, reconcileStatusEffects registry m (some snap) = Except.ok m2 ∧
      (m2.map Prod.fst).Nodup ∧
      (∀ k d, mapGet snap k = some d → mapGet m k = none →
          mapGet m2 k = some (mkReplicatedStatus d k) ∧ (mkReplicatedStatus d k).id = k) ∧
      (∀ k e, mapGet m k = some e → mapHas snap k = true → mapGet m2 k = some e) ∧
      (∀ k, mapHas snap k = false → mapGet m2 k = none) := by
  obtain ⟨m1, hm1⟩ := addMissingStatuses_ok registry snap m hreg
  obtain ⟨h1, h2, h3, h4⟩ := addMissingStatuses_spec registry snap m m1 hm1
  refine ⟨destroyStaleStatuses snap m1, ?_, ?_, ?_, ?_, ?_⟩
  · simp [reconcileStatusEffects, hm1, Except.map]
  · rw [destroyStaleStatuses, keys_filter]
    exact (h4 hnodup).filter _
  · intro k d hd hk
    refine ⟨?_, rfl⟩
    rw [destroyStaleStatuses, mapGet_filter_keys]
    have hhas : mapHas snap k = true := by simp [mapHas, hd]
    rw [hhas, if_pos rfl]
    exact h2 k d hd hk
  · intro k e he hhas
    rw [destroyStaleStatuses, mapGet_filter_keys, hhas, if_pos rfl]
    exact h1 k e he
  · intro k hhas
    rw [destroyStaleStatuses, mapGet_filter_keys, hhas]
    simp

/-- Witness for C5: the concrete two-cycle scenario of the spec.  A first
cycle with snapshot ids `\x7b"x"\x7d` against an empty local map creates
exactly one local effect with id `"x"`; a second cycle with an empty
snapshot against that map destroys it. -/
theorem C5_reconciliation_witness :
    (∃ m2, reconcileStatusEffects ["Fireball"] [] (some [("x", ⟨"Fireball"⟩)]) = Except.ok m2 ∧
        mapGet m2 "x" = some (mkReplicatedStatus ⟨"Fireball"⟩ "x") ∧
        (mkReplicatedStatus (⟨"Fireball"⟩ : StatusData) "x").id = "x") ∧
    (∃ m3, reconcileStatusEffects ["Fireball"]
        [("x", mkReplicatedStatus ⟨"Fireball"⟩ "x")] (some []) = Except.ok m3 ∧
        mapGet m3 "x" = none) := by
  constructor
  · obtain ⟨m2, hok, _, hadd, _, _⟩ :=
      C5_reconciliation ["Fireball"] [("x", ⟨"Fireball"⟩)] [] (by decide) (by decide)
    obtain ⟨hget, hid⟩ := hadd "x" ⟨"Fireball"⟩ (by decide) (by decide)
    exact ⟨m2, hok, hget, hid⟩
  · obtain ⟨m3, hok, _, _, _, hdel⟩ :=
      C5_reconciliation ["Fireball"] []
        [("x", mkReplicatedStatus ⟨"Fireball"⟩ "x")] (by decide) (by decide)
    exact ⟨m3, hok, hdel "x" (by decide)⟩

/-- Claim C6: constructing a second `Character` over an entity handle that
already has a live entry in the global handle → character map fails
fatally — `logError` fires on the duplicate check (line 51) before any
mutation, so no valid object is produced and neither the existing
character nor its map entry is touched (the error result carries no
updated map; the checks precede every mutation of the constructor). -/
theorem C6_duplicate_construction_fails (env : Env)
    (charMap : List (EngineInstance × Character)) (inst : EngineInstance)
    (fl : Option CharFlag) (c : Character)
    (hdup : mapGet charMap inst = some c) :
    ∃ msg, characterNew env charMap inst fl = Except.error msg ∧
      mapGet charMap inst = some c := by
  unfold characterNew
  by_cases hclient : env.isClient = true ∧ fl ≠ some CharFlag.CanCreateCharacterClient
  · exact ⟨"Attempted to manually create a character on client.",
      by rw [if_pos hclient], hdup⟩
  · exact ⟨"Attempted to create 2 different characters over a same instance.",
      by rw [if_neg hclient, if_pos (by simp [hdup])], hdup⟩

/-- Witness for C6: a concrete duplicate construction on the server over
an instance with a humanoid and a ready handler fails. -/
theorem C6_duplicate_construction_fails_witness :
    ∃ msg,
      characterNew { isClient := false, activeHandler := true }
        [(sampleInstance, sampleCharacter)] sampleInstance none = Except.error msg ∧
      mapGet [(sampleInstance, sampleCharacter)] sampleInstance = some sampleCharacter :=
  C6_duplicate_construction_fails _ _ _ _ _ (by rfl)

/-- Claim C7: destroying an effect previously attached via `_addStatus`
runs the one-time destruction handler, which (i) removes the effect from
the character effect map, (ii) detaches the change subscription, (iii)
fires the removed notification, and (iv) triggers a recomputation whose
input map no longer contains the effect, so its property contribution
cannot appear.  The hypothesis states the map invariant of the system:
every entry is keyed by its effect id. -/
theorem C7_destroy_removes_contribution (cs : CharState) (s : StatusEffect)
    (hkeys : ∀ p ∈ cs.statusEffects, (p.2 : StatusEffect).id = p.1) :
    mapGet (onStatusDestroyed (addStatus cs s) s).statusEffects s.id = none ∧
    s.id ∉ (onStatusDestroyed (addStatus cs s) s).connections ∧
    (onStatusDestroyed (addStatus cs s) s).removedFired = cs.removedFired ++ [s.id] ∧
    (∀ p ∈ (onStatusDestroyed (addStatus cs s) s).statusEffects, p.2 ≠ s) ∧
    (onStatusDestroyed (addStatus cs s) s).humanoid =
      applyToHumanoid (addStatus cs s).humanoid
        (updateHumanoidProps cs.defaultsProps
          ((mapDelete (addStatus cs s).statusEffects s.id).map Prod.snd)) := by
  refine ⟨?_, ?_, ?_, ?_, ?_⟩
  · rw [show (onStatusDestroyed (addStatus cs s) s).statusEffects
        = mapDelete (addStatus cs s).statusEffects s.id from rfl]
    rw [mapGet_mapDelete]
    simp
  · show s.id ∉ ((addStatus cs s).connections.filter (fun c => c ≠ s.id))
    intro hmem
    exact by simpa using (List.mem_filter.mp hmem).2
  · rfl
  · intro p hp
    have hp2 : p ∈ (addStatus cs s).statusEffects ∧ p.1 ≠ s.id := by
      have hf := List.mem_filter.mp hp
      exact ⟨hf.1, by simpa using hf.2⟩
    have hinv : ∀ q ∈ (addStatus cs s).statusEffects, (q.2 : StatusEffect).id = q.1 :=
      keys_id_mapSet cs.statusEffects s hkeys
    intro hps
    have hid : p.2.id = p.1 := hinv p hp2.1
    rw [hps] at hid
    exact hp2.2 hid.symm
  · rfl

/-- Witness for C7: the concrete scenario — attach a Set-mode speed
effect to a fresh character state, then destroy it. -/
theorem C7_destroy_removes_contribution_witness :
    mapGet (onStatusDestroyed (addStatus sampleCharState effSetSpeed20P1)
        effSetSpeed20P1).statusEffects effSetSpeed20P1.id = none ∧
    (onStatusDestroyed (addStatus sampleCharState effSetSpeed20P1)
        effSetSpeed20P1).removedFired = sampleCharState.removedFired ++ [effSetSpeed20P1.id] := by
  have h := C7_destroy_removes_contribution sampleCharState effSetSpeed20P1
    (by intro p hp; simp [sampleCharState] at hp)
  exact ⟨h.1, h.2.2.1⟩

/-- Claim C8: `SetDefaultProps` replaces the cached baseline wholesale
with the argument table (the stored reference is the argument reference —
no partial merge, every read now goes through the new table) and on the
server pushes exactly one incremental `defaultProps` patch to the shared
store (on the client it pushes nothing); the client reconciliation step
re-applies the snapshot baseline exactly when the snapshot table and the
cached table are different objects, regardless of their contents (the
`!==` on line 207 compares identity, never contents). -/
theorem C8_setDefaultProps_and_identity_reconcile (cs : CharRefState) (r : ℕ) :
    ((SetDefaultProps true cs r).defaultsPropsRef = r ∧
      (SetDefaultProps true cs r).patchesPushed = cs.patchesPushed ++ [r]) ∧
    ((SetDefaultProps false cs r).defaultsPropsRef = r ∧
      (SetDefaultProps false cs r).patchesPushed = cs.patchesPushed) ∧
    (r ≠ cs.defaultsPropsRef → reconcileDefaultProps cs r = SetDefaultProps false cs r) ∧
    (r = cs.defaultsPropsRef → reconcileDefaultProps cs r = cs) := by
  refine ⟨⟨rfl, rfl⟩, ⟨rfl, rfl⟩, ?_, ?_⟩
  · intro hne
    simp [reconcileDefaultProps, hne]
  · intro heq
    simp [reconcileDefaultProps, heq]

/-- Witness for C8: concrete applications — a snapshot reference distinct
from the cached one is re-applied, the identical reference is not. -/
theorem C8_setDefaultProps_and_identity_reconcile_witness :
    (reconcileDefaultProps { statusEffects := [], defaultsPropsRef := 0, patchesPushed := [] } 1
      = SetDefaultProps false
          { statusEffects := [], defaultsPropsRef := 0, patchesPushed := [] } 1) ∧
    (reconcileDefaultProps { statusEffects := [], defaultsPropsRef := 0, patchesPushed := [] } 0
      = { statusEffects := [], defaultsPropsRef := 0, patchesPushed := [] }) := by
  constructor
  · exact (C8_setDefaultProps_and_identity_reconcile
      { statusEffects := [], defaultsPropsRef := 0, patchesPushed := [] } 1).2.2.1 (by decide)
  · exact (C8_setDefaultProps_and_identity_reconcile
      { statusEffects := [], defaultsPropsRef := 0, patchesPushed := [] } 0).2.2.2 rfl

/-- Claim C9: `GetDefaultsProps` and `GetCharacterMap` both return
`table.clone` copies: the returned reference is a fresh table distinct
from the internal one, and after any sequence of in-place mutations aimed
at the returned table, the internal table still holds its original
payload. -/
theorem C9_accessors_return_copies
    (sp : Store AffectableHumanoidProps) (dref : ℕ) (dv : AffectableHumanoidProps)
    (sm : Store (List (EngineInstance × Character))) (mref : ℕ)
    (mv : List (EngineInstance × Character))
    (hwfp : storeWF sp) (hgetp : mapGet sp.objs dref = some dv)
    (hwfm : storeWF sm) (hgetm : mapGet sm.objs mref = some mv) :
    (∃ r1 s1, GetDefaultsProps sp dref = some (r1, s1) ∧ r1 ≠ dref ∧
      ∀ fs, mapGet (storeWrites s1 r1 fs).objs dref = some dv) ∧
    (∃ r2 s2, GetCharacterMap sm mref = some (r2, s2) ∧ r2 ≠ mref ∧
      ∀ fs, mapGet (storeWrites s2 r2 fs).objs mref = some mv) :=
  ⟨tableClone_writes_preserve sp dref dv hwfp hgetp,
   tableClone_writes_preserve sm mref mv hwfm hgetm⟩

/-- Witness for C9: concrete one-object stores. -/
theorem C9_accessors_return_copies_witness :
    (∃ r1 s1, GetDefaultsProps { objs := [(0, livePropsStart)], next := 1 } 0
        = some (r1, s1) ∧ r1 ≠ 0 ∧
      ∀ fs, mapGet (storeWrites s1 r1 fs).objs 0 = some livePropsStart) ∧
    (∃ r2 s2, GetCharacterMap { objs := [(0, [])], next := 1 } 0 = some (r2, s2) ∧ r2 ≠ 0 ∧
      ∀ fs, mapGet (storeWrites s2 r2 fs).objs 0 = some []) :=
  C9_accessors_return_copies
    { objs := [(0, livePropsStart)], next := 1 } 0 livePropsStart
    { objs := [(0, [])], next := 1 } 0 []
    (by intro p hp; simp at hp; simp [hp])
    (by rfl)
    (by intro p hp; simp at hp; simp [hp])
    (by rfl)

/-- Claim C10: the snapshot built by `_packData` aliases the internal
baseline table (`defaultProps` is the same reference — no clone), and
`SetDefaultProps` stores its argument table by reference; hence a write
through the packed snapshot baseline, or through a table previously passed
to `SetDefaultProps`, lands on the character internal baseline — in
contrast to `GetDefaultsProps`, whose result is a fresh reference. -/
theorem C10_packData_shares_reference (cs : CharRefState)
    (s : Store AffectableHumanoidProps) (v : AffectableHumanoidProps)
    (f : AffectableHumanoidProps → AffectableHumanoidProps)
    (hwf : storeWF s) (hget : mapGet s.objs cs.defaultsPropsRef = some v) :
    (packData cs).defaultProps = cs.defaultsPropsRef ∧
    mapGet (storeWrite s (packData cs).defaultProps f).objs cs.defaultsPropsRef
      = some (f v) ∧
    (∀ (r : ℕ) (b : Bool), (SetDefaultProps b cs r).defaultsPropsRef = r) ∧
    (∀ (r : ℕ) (b : Bool) (w : AffectableHumanoidProps), mapGet s.objs r = some w →
      mapGet (storeWrite s r f).objs (SetDefaultProps b cs r).defaultsPropsRef
        = some (f w)) ∧
    (∃ r1 s1, GetDefaultsProps s cs.defaultsPropsRef = some (r1, s1) ∧
      r1 ≠ cs.defaultsPropsRef) := by
  refine ⟨rfl, ?_, fun r b => rfl, ?_, ?_⟩
  · exact storeWrite_same s cs.defaultsPropsRef v f hget
  · intro r b w hw
    exact storeWrite_same s r w f hw
  · obtain ⟨r1, s1, hclone, hne, _⟩ := tableClone_writes_preserve s _ v hwf hget
    exact ⟨r1, s1, hclone, hne⟩

/-- Witness for C10: a concrete write through the packed snapshot
reference mutates the internal baseline payload. -/
theorem C10_packData_shares_reference_witness :
    (packData { statusEffects := [], defaultsPropsRef := 0, patchesPushed := [] }).defaultProps
      = 0 ∧
    mapGet (storeWrite { objs := [(0, livePropsStart)], next := 1 }
        (packData { statusEffects := [], defaultsPropsRef := 0, patchesPushed := [] }).defaultProps
        (fun p => { p with WalkSpeed := 99 })).objs 0
      = some { livePropsStart with WalkSpeed := 99 } := by
  have h := C10_packData_shares_reference
    { statusEffects := [], defaultsPropsRef := 0, patchesPushed := [] }
    { objs := [(0, livePropsStart)], next := 1 } livePropsStart
    (fun p => { p with WalkSpeed := 99 })
    (by intro p hp; simp at hp; simp [hp])
    (by rfl)
  exact ⟨h.1, h.2.1⟩

end WCS
